import Mathlib

/-!
Verification development for the `py_compile_bytecode!` source-to-bundle
packager (`derive/src/compile_bytecode.rs`).

Shallow embedding choices:
* The filesystem is a rose tree (`FsTree`); a path is a list of name
  segments resolved from a root tree.  `CARGO_MANIFEST_DIR` is an explicit
  path parameter (its absence panics in the source and is out of model scope).
* `Path::to_string_lossy` on a path built by successive `push` of relative
  segments is modelled as joining segments with "/" (Unix display form).
* The external compiler `rustpython_compiler::compile::compile` is an opaque
  parameter `f : CompileFn Code`; its fourth (`source_path`) argument `0` is
  constant in the source and dropped.
* `HashMap` is modelled as an association list with overwriting insert
  (`insertMod`), and `HashMap::extend` as a fold of inserts.
* Recursion of `compile_dir` through `pylink` indirections is not
  structurally decreasing (a link can point anywhere, and the real program
  can loop), so the walker takes explicit fuel; running out of fuel is the
  distinguished `Err.fuelErr`, an artifact no theorem relies on.
-/

/-- Compile mode, mirroring `rustpython_compiler::compile::Mode`. -/
inductive Mode where
  | exec : Mode
  | eval : Mode
  | single : Mode
deriving DecidableEq

/-- Modelled from the spec: the mode string parser (`s.value().parse()`,
`FromStr` for `Mode` lives outside the packaged sources); the spec fixes the
three mode names `exec`, `eval`, `single`. -/
def parseMode (s : String) : Option Mode :=
  if s = "exec" then some Mode.exec
  else if s = "eval" then some Mode.eval
  else if s = "single" then some Mode.single
  else none

/-- Error outcomes of the macro, abstracting the `Diagnostic` payloads
(spans and message text are proc-macro data outside the model). -/
inductive Err where
  | listDirErr : Err
  | readLinkErr : Err
  | readFileErr : Err
  | compileErr : String → Err
  | fuelErr : Err
  | duplicateSource : Err
  | mustHaveSource : Err
  | invalidMode : Err
  | modeNotString : Err
  | moduleNameNotString : Err
  | sourceNotString : Err
deriving DecidableEq

/-- Mirrors `rustpython_bytecode::bytecode::FrozenModule`, with the compiled
`CodeObject` kept abstract as `Code`. -/
structure FrozenModule (Code : Type) where
  code : Code
  package : Bool
deriving DecidableEq

/-- The bundle (`HashMap<String, FrozenModule>`) as an association list. -/
abbrev Bundle (Code : Type) := List (String × FrozenModule Code)

/-- The external compiler boundary: text, mode and qualified name to a
compiled unit or an error message. -/
abbrev CompileFn (Code : Type) := String → Mode → String → Except String Code

/-- `HashMap::insert`: any previous binding of the key is dropped, the new
binding observed afterwards (placed at the end of the list). -/
def insertMod {Code : Type} (m : Bundle Code) (k : String) (v : FrozenModule Code) :
    Bundle Code :=
  m.filter (fun p => p.1 != k) ++ [(k, v)]

/-- `HashMap::extend`: insert every binding of the second map. -/
def extendMod {Code : Type} (m : Bundle Code) (n : Bundle Code) : Bundle Code :=
  n.foldl (fun a p => insertMod a p.1 p.2) m

/-- Lookup in a bundle. -/
def lookupMod {Code : Type} (m : Bundle Code) (k : String) :
    Option (FrozenModule Code) :=
  (m.find? (fun p => p.1 == k)).map (fun p => p.2)

/-- A filesystem tree: a file with text content, or a directory listing
named entries in readdir order. -/
inductive FsTree where
  | file : String → FsTree
  | dir : List (String × FsTree) → FsTree

/-- First entry with the given name (real directories have unique names). -/
def lookupEntry : List (String × FsTree) → String → Option FsTree
  | [], _ => none
  | (n, t) :: rest, name => if n == name then some t else lookupEntry rest name

/-- Resolve a path (list of segments) from a tree. -/
def FsTree.lookup : FsTree → List String → Option FsTree
  | t, [] => some t
  | FsTree.file _, _ :: _ => none
  | FsTree.dir es, seg :: rest =>
    match lookupEntry es seg with
    | some t => FsTree.lookup t rest
    | none => none

/-- `Path::is_dir`. -/
def FsTree.isDir (fs : FsTree) (p : List String) : Bool :=
  match fs.lookup p with
  | some (FsTree.dir _) => true
  | _ => false

/-- `fs::read_to_string` (succeeds exactly on files). -/
def FsTree.readFile (fs : FsTree) (p : List String) : Option String :=
  match fs.lookup p with
  | some (FsTree.file c) => some c
  | _ => none

/-- `fs::read_dir`: the entry names, in listing order. -/
def FsTree.readDir (fs : FsTree) (p : List String) : Option (List String) :=
  match fs.lookup p with
  | some (FsTree.dir es) => some (es.map (fun e => e.1))
  | _ => none

/-- Split a file name at its last dot: `some (before, after)` when a dot
exists, `none` otherwise. -/
def splitLast : List Char → Option (List Char × List Char)
  | [] => none
  | c :: cs =>
    match splitLast cs with
    | some (pre, suf) => some (c :: pre, suf)
    | none => if c = '.' then some ([], cs) else none

/-- `Path::file_stem` and `Path::extension` on a file name: the portion
before/after the final dot, except that a lone leading dot is part of the
stem and yields no extension. -/
def stemExt (name : String) : String × Option String :=
  match splitLast name.data with
  | some (pre, suf) =>
    if pre = [] then (name, none) else (String.mk pre, some (String.mk suf))
  | none => (name, none)

/-- Trim leading and trailing whitespace (`str::trim`). -/
def strTrim (s : String) : String :=
  String.mk (((s.data.dropWhile Char.isWhitespace).reverse.dropWhile
    Char.isWhitespace).reverse)

/-- Split a path string into its non-empty "/"-separated segments
(`PathBuf::from` / `Path::join` segmenting, Unix separators). -/
def splitPathAux : List Char → List Char → List String
  | [], cur => if cur = [] then [] else [String.mk cur.reverse]
  | c :: cs, cur =>
    if c = '/' then
      if cur = [] then splitPathAux cs []
      else String.mk cur.reverse :: splitPathAux cs []
    else splitPathAux cs (c :: cur)

def splitPath (s : String) : List String := splitPathAux s.data []

/-- Lexical resolution of `.` and `..` segments, as the OS does for a tree
without symlinks. -/
def normalizeSegs (segs : List String) : List String :=
  segs.foldl
    (fun acc seg =>
      if seg = "." then acc
      else if seg = ".." then acc.dropLast
      else acc ++ [seg])
    []

/-- `path.parent().unwrap().join(s.trim())` for a `pylink` file living in
directory `dirPath`, followed by OS path resolution. -/
def resolveLink (dirPath : List String) (content : String) : List String :=
  normalizeSegs (dirPath ++ splitPath (strTrim content))

/-- Display form of a path built from relative segments
(`Path::to_string_lossy`). -/
def pathToString (segs : List String) : String :=
  String.intercalate "/" segs

/-- The loop body of `CompilationSource::compile_dir`: process the remaining
entry names of the directory at `dirPath`, extending the accumulated code
map.  Each entry is classified by extension exactly as the source's `match`:
`py` files and (after substitution) `pylink` targets are taken, extensionless
entries only when they are directories, anything else is skipped.  The
recursive `self.compile_dir(..)` call is abstracted as `recur` so that the
loop is structurally recursive on the entry list. -/
def compileEntries {Code : Type} (f : CompileFn Code) (fs : FsTree)
    (recur : List String → String → Mode → Except Err (Bundle Code)) :
    List String → List String → String → Mode → Bundle Code →
    Except Err (Bundle Code)
  | _, [], _, _, acc => Except.ok acc
  | dirPath, name :: rest, parent, mode, acc =>
    let stem := (stemExt name).1
    let cls : Except Err (Option (List String)) :=
      match (stemExt name).2 with
      | some e =>
        if e = "py" then Except.ok (some (dirPath ++ [name]))
        else if e = "pylink" then
          match fs.readFile (dirPath ++ [name]) with
          | some s => Except.ok (some (resolveLink dirPath s))
          | none => Except.error Err.readLinkErr
        else Except.ok none
      | none =>
        if fs.isDir (dirPath ++ [name]) then Except.ok (some (dirPath ++ [name]))
        else Except.ok none
    match cls with
    | Except.error e => Except.error e
    | Except.ok none => compileEntries f fs recur dirPath rest parent mode acc
    | Except.ok (some filepath) =>
      if fs.isDir filepath then
        match recur filepath (parent ++ stem) mode with
        | Except.error e => Except.error e
        | Except.ok sub =>
          compileEntries f fs recur dirPath rest parent mode (extendMod acc sub)
      else
        match fs.readFile filepath with
        | none => Except.error Err.readFileErr
        | some src =>
          let isInit := stem == "__init__"
          let qname :=
            if isInit then parent
            else if parent == "" then stem
            else parent ++ "." ++ stem
          match f src mode qname with
          | Except.error e => Except.error (Err.compileErr e)
          | Except.ok code =>
            compileEntries f fs recur dirPath rest parent mode
              (insertMod acc qname (FrozenModule.mk code isInit))

/-- `CompilationSource::compile_dir` at a directory path: list the directory
and run the entry loop.  One unit of fuel is consumed per nesting level; the
real program has no such bound (and can loop through `pylink` cycles), so
`Err.fuelErr` is an embedding artifact no theorem relies on. -/
def compileDir {Code : Type} (f : CompileFn Code) (fs : FsTree) :
    Nat → List String → String → Mode → Except Err (Bundle Code)
  | 0, _, _, _ => Except.error Err.fuelErr
  | fuel + 1, dirPath, parent, mode =>
    match fs.readDir dirPath with
    | none => Except.error Err.listDirErr
    | some names =>
      compileEntries f fs (compileDir f fs fuel) dirPath names parent mode []

/-- `CompilationSource::compile_string` (the external compiler call with its
error wrapped into a diagnostic). -/
def compileString {Code : Type} (f : CompileFn Code) (src : String)
    (mode : Mode) (moduleName : String) : Except Err Code :=
  match f src mode moduleName with
  | Except.error e => Except.error (Err.compileErr e)
  | Except.ok c => Except.ok c

/-- `CompilationSourceKind`; paths are kept as segment lists. -/
inductive CompilationSourceKind where
  | file : List String → CompilationSourceKind
  | sourceCode : String → CompilationSourceKind
  | dir : List String → CompilationSourceKind

/-- `CompilationSource::compile`: dispatch over the source kind.  A `file`
whose resolved path is a directory falls back to the tree walk with the
path's display string as starting prefix and `Mode::Exec`. -/
def compileSource {Code : Type} (f : CompileFn Code) (fs : FsTree)
    (manifestDir : List String) (fuel : Nat) (kind : CompilationSourceKind)
    (mode : Mode) (moduleName : String) : Except Err (Bundle Code) :=
  match kind with
  | CompilationSourceKind.file rel =>
    let path := manifestDir ++ rel
    if fs.isDir path then
      compileDir f fs fuel path (pathToString path) Mode.exec
    else
      match fs.readFile path with
      | none => Except.error Err.readFileErr
      | some src =>
        match compileString f src mode moduleName with
        | Except.error e => Except.error e
        | Except.ok c =>
          Except.ok [(moduleName, FrozenModule.mk c false)]
  | CompilationSourceKind.sourceCode code =>
    match compileString f code mode moduleName with
    | Except.error e => Except.error e
    | Except.ok c => Except.ok [(moduleName, FrozenModule.mk c false)]
  | CompilationSourceKind.dir rel =>
    compileDir f fs fuel (manifestDir ++ rel) "" mode

/-- A `syn::Lit` as far as the macro inspects it. -/
inductive PLit where
  | str : String → PLit
  | other : PLit

/-- A `syn::Meta` item: only `name = literal` pairs are inspected. -/
inductive PMeta where
  | nameValue : String → PLit → PMeta
  | other : PMeta

/-- The mutable locals of `PyCompileInput::compile`. -/
structure VState where
  moduleName : Option String
  mode : Option Mode
  source : Option CompilationSourceKind

/-- One iteration of the meta loop in `PyCompileInput::compile`, including
`assert_source_empty` firing before the literal is even inspected. -/
def processMeta (st : VState) (m : PMeta) : Except Err VState :=
  match m with
  | PMeta.nameValue n l =>
    if n = "mode" then
      match l with
      | PLit.str s =>
        match parseMode s with
        | some md => Except.ok { st with mode := some md }
        | none => Except.error Err.invalidMode
      | PLit.other => Except.error Err.modeNotString
    else if n = "module_name" then
      match l with
      | PLit.str s => Except.ok { st with moduleName := some s }
      | PLit.other => Except.error Err.moduleNameNotString
    else if n = "source" then
      match st.source with
      | some _ => Except.error Err.duplicateSource
      | none =>
        match l with
        | PLit.str s =>
          Except.ok { st with source := some (CompilationSourceKind.sourceCode s) }
        | PLit.other => Except.error Err.sourceNotString
    else if n = "file" then
      match st.source with
      | some _ => Except.error Err.duplicateSource
      | none =>
        match l with
        | PLit.str s =>
          Except.ok { st with source := some (CompilationSourceKind.file (splitPath s)) }
        | PLit.other => Except.error Err.sourceNotString
    else if n = "dir" then
      match st.source with
      | some _ => Except.error Err.duplicateSource
      | none =>
        match l with
        | PLit.str s =>
          Except.ok { st with source := some (CompilationSourceKind.dir (splitPath s)) }
        | PLit.other => Except.error Err.sourceNotString
    else Except.ok st
  | PMeta.other => Except.ok st

/-- The meta loop. -/
def foldMetas : List PMeta → VState → Except Err VState
  | [], st => Except.ok st
  | m :: ms, st =>
    match processMeta st m with
    | Except.error e => Except.error e
    | Except.ok st' => foldMetas ms st'

/-- `PyCompileInput::compile`: validate the metas, then compile the selected
source with `mode` defaulting to `Exec` and `module_name` to `"frozen"`. -/
def pyCompileInputCompile {Code : Type} (f : CompileFn Code) (fs : FsTree)
    (manifestDir : List String) (fuel : Nat) (metas : List PMeta) :
    Except Err (Bundle Code) :=
  match foldMetas metas (VState.mk none none none) with
  | Except.error e => Except.error e
  | Except.ok st =>
    match st.source with
    | none => Except.error Err.mustHaveSource
    | some k =>
      compileSource f fs manifestDir fuel k (st.mode.getD Mode.exec)
        (st.moduleName.getD "frozen")

/-- Concrete compiler used for witnesses: the "code object" is just the
source text and qualified name glued together. -/
def tagCompile : CompileFn String := fun s _ n => Except.ok (s ++ ":" ++ n)

/-! ### Helper lemmas about names, paths and bundles -/

theorem splitLast_of_no_dot : ∀ l : List Char, '.' ∉ l → splitLast l = none
  | [], _ => rfl
  | c :: cs, h => by
    have hc : ¬ c = '.' := fun hc => h (by simp [hc])
    have ih := splitLast_of_no_dot cs (fun hm => h (List.mem_cons_of_mem c hm))
    simp [splitLast, ih, hc]

theorem splitLast_append : ∀ t suf : List Char, '.' ∉ suf →
    splitLast (t ++ '.' :: suf) = some (t, suf)
  | [], suf, h => by simp [splitLast, splitLast_of_no_dot suf h]
  | c :: t, suf, h => by simp [splitLast, splitLast_append t suf h]

theorem data_ne_nil (t : String) (h : t ≠ "") : t.data ≠ [] := by
  intro hd
  apply h
  cases t with
  | mk l => simp at hd; simp [hd]

theorem stemExt_append (t : String) (suf : List Char) (ht : t ≠ "")
    (hs : '.' ∉ suf) :
    stemExt (t ++ String.mk ('.' :: suf)) = (t, some (String.mk suf)) := by
  have hdata : (t ++ String.mk ('.' :: suf)).data = t.data ++ '.' :: suf := rfl
  unfold stemExt
  rw [hdata, splitLast_append t.data suf hs]
  simp [data_ne_nil t ht]

theorem stemExt_py (t : String) (ht : t ≠ "") :
    stemExt (t ++ ".py") = (t, some "py") :=
  stemExt_append t ['p', 'y'] ht (by decide)

theorem stemExt_pylink (t : String) (ht : t ≠ "") :
    stemExt (t ++ ".pylink") = (t, some "pylink") :=
  stemExt_append t ['p', 'y', 'l', 'i', 'n', 'k'] ht (by decide)

theorem append_py_inj {a b : String} (h : a ++ ".py" = b ++ ".py") : a = b := by
  rw [String.ext_iff] at h ⊢
  exact List.append_cancel_right h

theorem py_ne_pylink (t m : String) : t ++ ".py" ≠ m ++ ".pylink" := by
  intro h
  rw [String.ext_iff] at h
  have h2 := congrArg List.reverse h
  simp [List.reverse_append] at h2

theorem ne_dot_append (p s : String) : p ≠ p ++ "." ++ s := by
  intro h
  rw [String.ext_iff] at h
  simp [List.append_assoc] at h

theorem insertMod_fresh {Code : Type} (acc : Bundle Code) (k : String)
    (v : FrozenModule Code) (h : ∀ q ∈ acc, q.1 ≠ k) :
    insertMod acc k v = acc ++ [(k, v)] := by
  unfold insertMod
  have : acc.filter (fun p => p.1 != k) = acc := by
    apply List.filter_eq_self.mpr
    intro q hq
    simpa using h q hq
  rw [this]

theorem foldMetas_append (a b : List PMeta) (st : VState) :
    foldMetas (a ++ b) st =
      match foldMetas a st with
      | Except.error e => Except.error e
      | Except.ok st' => foldMetas b st' := by
  induction a generalizing st with
  | nil => rfl
  | cons m ms ih =>
    simp only [List.cons_append, foldMetas]
    cases processMeta st m with
    | error e => rfl
    | ok st' => exact ih st'

theorem FsTree.lookup_append (fs : FsTree) (p q : List String) :
    fs.lookup (p ++ q) =
      match fs.lookup p with
      | some t => t.lookup q
      | none => none := by
  induction p generalizing fs with
  | nil => simp [FsTree.lookup]
  | cons s p ih =>
    cases fs with
    | file c => simp [FsTree.lookup]
    | dir es =>
      simp only [List.cons_append, FsTree.lookup]
      cases lookupEntry es s with
      | none => rfl
      | some t => exact ih t

/-! ### Claims -/

/-- Claim C2: the spec says a sub-directory recursion dot-joins the new
qualified-name prefix, so a unit at `a/b/m` gets name `a.b.m`.  The code
builds the child prefix without a separator and yields `ab.m`: evaluation of
the embedded walker at the failing input. -/
theorem c2_missing_dot_eval :
    compileDir tagCompile
      (FsTree.dir [("a", FsTree.dir [("b", FsTree.dir [("m.py", FsTree.file "x")])])])
      3 [] "" Mode.exec
    = Except.ok [("ab.m", FrozenModule.mk "x:ab.m" false)] := rfl

/-- Claim C1, counterexample: `a.b.py` and `a/b.py` derive the same
qualified name `a.b`, yet bundle construction succeeds (no hard error) and
keeps only the later-processed unit. -/
theorem c1_collision_not_error_cex :
    compileDir tagCompile
      (FsTree.dir [("a.b.py", FsTree.file "s1"), ("a", FsTree.dir [("b.py", FsTree.file "s2")])])
      2 [] "" Mode.exec
    = Except.ok [("a.b", FrozenModule.mk "s2:a.b" false)] := rfl

/-- Claim C1, amended: a qualified-name collision is not detected; the
construction succeeds and the later-processed unit's entry silently replaces
the earlier one (map insertion overwrites), for any compiler and contents. -/
theorem c1_collision_overwrite {Code : Type} (f : CompileFn Code)
    (c1 c2 : String) (k1 k2 : Code)
    (h1 : f c1 Mode.exec "a.b" = Except.ok k1)
    (h2 : f c2 Mode.exec "a.b" = Except.ok k2) :
    compileDir f
      (FsTree.dir [("a.b.py", FsTree.file c1), ("a", FsTree.dir [("b.py", FsTree.file c2)])])
      2 [] "" Mode.exec
    = Except.ok [("a.b", FrozenModule.mk k2 false)] := by
  simp [compileDir, compileEntries, FsTree.readDir, FsTree.readFile, FsTree.isDir,
    FsTree.lookup, lookupEntry, stemExt, splitLast, h1, h2, insertMod, extendMod]

theorem c1_collision_overwrite_wit :
    tagCompile "s1" Mode.exec "a.b" = Except.ok "s1:a.b" ∧
    compileDir tagCompile
      (FsTree.dir [("a.b.py", FsTree.file "s1"), ("a", FsTree.dir [("b.py", FsTree.file "s2")])])
      2 [] "" Mode.exec
    = Except.ok [("a.b", FrozenModule.mk "s2:a.b" false)] :=
  ⟨rfl, c1_collision_overwrite tagCompile "s1" "s2" "s1:a.b" "s2:a.b" rfl rfl⟩

/-- Claim C7: a request carrying only inline source text compiles it in
`Exec` mode under the default bundle-root name: the bundle has exactly one
entry keyed `frozen`, not marked as a package. -/
theorem c7_inline_default {Code : Type} (f : CompileFn Code) (fs : FsTree)
    (md : List String) (fuel : Nat) (txt : String) (k : Code)
    (h : f txt Mode.exec "frozen" = Except.ok k) :
    pyCompileInputCompile f fs md fuel [PMeta.nameValue "source" (PLit.str txt)]
    = Except.ok [("frozen", FrozenModule.mk k false)] := by
  simp [pyCompileInputCompile, foldMetas, processMeta, compileSource, compileString, h]

theorem c7_inline_default_wit :
    tagCompile "x = 1" Mode.exec "frozen" = Except.ok "x = 1:frozen" ∧
    pyCompileInputCompile tagCompile (FsTree.dir []) [] 1
      [PMeta.nameValue "source" (PLit.str "x = 1")]
    = Except.ok [("frozen", FrozenModule.mk "x = 1:frozen" false)] :=
  ⟨rfl, c7_inline_default tagCompile (FsTree.dir []) [] 1 "x = 1" "x = 1:frozen" rfl⟩

/-- Claim C9: when a `file` request resolves to a directory, the configured
compile mode and module name play no role: the result is the tree walk of
that directory in `Exec` mode, whatever `mode` and `moduleName` were. -/
theorem c9_dir_fallback_exec {Code : Type} (f : CompileFn Code) (fs : FsTree)
    (md rel : List String) (fuel : Nat)
    (h : fs.isDir (md ++ rel) = true) (mode : Mode) (mn : String) :
    compileSource f fs md fuel (CompilationSourceKind.file rel) mode mn
    = compileDir f fs fuel (md ++ rel) (pathToString (md ++ rel)) Mode.exec := by
  simp [compileSource, h]

theorem c9_dir_fallback_exec_wit :
    (FsTree.dir [("proj", FsTree.dir [("d", FsTree.dir [("m.py", FsTree.file "s")])])]).isDir
      (["proj"] ++ ["d"]) = true ∧
    compileSource tagCompile
      (FsTree.dir [("proj", FsTree.dir [("d", FsTree.dir [("m.py", FsTree.file "s")])])])
      ["proj"] 2 (CompilationSourceKind.file ["d"]) Mode.single "mymod"
    = compileDir tagCompile
      (FsTree.dir [("proj", FsTree.dir [("d", FsTree.dir [("m.py", FsTree.file "s")])])])
      2 (["proj"] ++ ["d"]) (pathToString (["proj"] ++ ["d"])) Mode.exec :=
  ⟨rfl, c9_dir_fallback_exec tagCompile
    (FsTree.dir [("proj", FsTree.dir [("d", FsTree.dir [("m.py", FsTree.file "s")])])])
    ["proj"] ["d"] 2 rfl Mode.single "mymod"⟩

/-- Claim C10: a `dir` request whose root directly contains the package
initializer produces a bundle entry keyed by the empty string, since the
starting prefix is empty. -/
theorem c10_root_initializer_empty_name {Code : Type} (f : CompileFn Code)
    (c : String) (k : Code) (mode : Mode) (mn : String) (fuel : Nat)
    (h : f c mode "" = Except.ok k) :
    compileSource f
      (FsTree.dir [("r", FsTree.dir [("d", FsTree.dir [("__init__.py", FsTree.file c)])])])
      ["r"] (fuel + 1) (CompilationSourceKind.dir ["d"]) mode mn
    = Except.ok [("", FrozenModule.mk k true)] := by
  simp [compileSource, compileDir, compileEntries, FsTree.readDir, FsTree.readFile,
    FsTree.isDir, FsTree.lookup, lookupEntry, stemExt, splitLast, h, insertMod]

theorem c10_root_initializer_empty_name_wit :
    tagCompile "i" Mode.exec "" = Except.ok "i:" ∧
    compileSource tagCompile
      (FsTree.dir [("r", FsTree.dir [("d", FsTree.dir [("__init__.py", FsTree.file "i")])])])
      ["r"] 1 (CompilationSourceKind.dir ["d"]) Mode.exec "frozen"
    = Except.ok [("", FrozenModule.mk "i:" true)] :=
  ⟨rfl, c10_root_initializer_empty_name tagCompile "i" "i:" Mode.exec "frozen" 0 rfl⟩

/-- Claim C3, counterexample: a `file` request resolving to directory
`proj/d` containing `m.py` yields the qualified name `proj/d.m` — the walk
starts with the path's string form as prefix, not an empty prefix, so the
name is not derived purely from the tree (it is not `m`). -/
theorem c3_prefix_cex :
    compileSource tagCompile
      (FsTree.dir [("proj", FsTree.dir [("d", FsTree.dir [("m.py", FsTree.file "s")])])])
      ["proj"] 2 (CompilationSourceKind.file ["d"]) Mode.single "mymod"
    = Except.ok [("proj/d.m", FrozenModule.mk "s:proj/d.m" false)]
    ∧ ("proj/d.m" : String) ≠ "m" :=
  ⟨rfl, by decide⟩

/-- Claim C3, amended: a `file` request whose resolved path is a directory
falls back to walking that directory with the starting qualified-name prefix
equal to the resolved path's own string form — so names are prefixed by the
path string, while the supplied `module_name` and `mode` are indeed
ignored. -/
theorem c3_dir_fallback_prefixed {Code : Type} (f : CompileFn Code)
    (fs : FsTree) (md rel : List String) (c : String) (k : Code) (fuel : Nat)
    (mode : Mode) (mn : String)
    (hdir : fs.lookup (md ++ rel) = some (FsTree.dir [("m.py", FsTree.file c)]))
    (hp : pathToString (md ++ rel) ≠ "")
    (hc : f c Mode.exec (pathToString (md ++ rel) ++ "." ++ "m") = Except.ok k) :
    compileSource f fs md (fuel + 1) (CompilationSourceKind.file rel) mode mn
    = Except.ok [(pathToString (md ++ rel) ++ "." ++ "m", FrozenModule.mk k false)] := by
  have hisdir : fs.isDir (md ++ rel) = true := by simp [FsTree.isDir, hdir]
  have hlook : fs.lookup (md ++ (rel ++ ["m.py"])) = some (FsTree.file c) := by
    rw [← List.append_assoc, FsTree.lookup_append, hdir]
    simp [FsTree.lookup, lookupEntry]
  have hfile : fs.readFile (md ++ (rel ++ ["m.py"])) = some c := by
    simp [FsTree.readFile, hlook]
  have hnd : fs.isDir (md ++ (rel ++ ["m.py"])) = false := by
    simp [FsTree.isDir, hlook]
  have hbeq : (pathToString (md ++ rel) == "") = false := by
    simp [hp]
  simp [compileSource, hisdir, compileDir, FsTree.readDir, hdir, compileEntries,
    stemExt, splitLast, hnd, hfile, hbeq, hc, insertMod]

theorem c3_dir_fallback_prefixed_wit :
    (FsTree.dir [("proj", FsTree.dir [("d", FsTree.dir [("m.py", FsTree.file "s")])])]).lookup
      (["proj"] ++ ["d"]) = some (FsTree.dir [("m.py", FsTree.file "s")]) ∧
    pathToString (["proj"] ++ ["d"]) ≠ "" ∧
    compileSource tagCompile
      (FsTree.dir [("proj", FsTree.dir [("d", FsTree.dir [("m.py", FsTree.file "s")])])])
      ["proj"] 2 (CompilationSourceKind.file ["d"]) Mode.single "mymod"
    = Except.ok [(pathToString (["proj"] ++ ["d"]) ++ "." ++ "m",
        FrozenModule.mk "s:proj/d.m" false)] :=
  ⟨rfl, by decide,
    c3_dir_fallback_prefixed tagCompile
      (FsTree.dir [("proj", FsTree.dir [("d", FsTree.dir [("m.py", FsTree.file "s")])])])
      ["proj"] ["d"] "s" "s:proj/d.m" 1 Mode.single "mymod" rfl (by decide) rfl⟩

/-- Claim C4: inside a directory processed under prefix `p`, the package
initializer `__init__.py` produces the entry for `p` itself marked as a
package, and a sibling `mod.py` produces `p.mod` (or `mod` when `p` is
empty) not marked as a package. -/
theorem c4_package_initializer {Code : Type} (f : CompileFn Code)
    (p c1 c2 : String) (k1 k2 : Code) (mode : Mode) (fuel : Nat)
    (h1 : f c1 mode p = Except.ok k1)
    (h2 : f c2 mode (if p = "" then "mod" else p ++ "." ++ "mod") = Except.ok k2) :
    compileDir f
      (FsTree.dir [("__init__.py", FsTree.file c1), ("mod.py", FsTree.file c2)])
      (fuel + 1) [] p mode
    = Except.ok [(p, FrozenModule.mk k1 true),
        (if p = "" then "mod" else p ++ "." ++ "mod", FrozenModule.mk k2 false)] := by
  by_cases hp : p = ""
  · subst hp
    have h2x : f c2 mode "mod" = Except.ok k2 := by simpa using h2
    simp [compileDir, compileEntries, FsTree.readDir, FsTree.readFile, FsTree.isDir,
      FsTree.lookup, lookupEntry, stemExt, splitLast, h1, h2x, insertMod]
  · have hq : p ≠ p ++ "." ++ "mod" := ne_dot_append p "mod"
    rw [if_neg hp] at h2 ⊢
    simp [compileDir, compileEntries, FsTree.readDir, FsTree.readFile, FsTree.isDir,
      FsTree.lookup, lookupEntry, stemExt, splitLast, h1, h2, hp, insertMod, hq]

theorem c4_package_initializer_wit :
    tagCompile "i" Mode.exec "pkg" = Except.ok "i:pkg" ∧
    tagCompile "m" Mode.exec (if ("pkg" : String) = "" then "mod" else "pkg" ++ "." ++ "mod")
      = Except.ok "m:pkg.mod" ∧
    compileDir tagCompile
      (FsTree.dir [("__init__.py", FsTree.file "i"), ("mod.py", FsTree.file "m")])
      1 [] "pkg" Mode.exec
    = Except.ok [("pkg", FrozenModule.mk "i:pkg" true),
        (if ("pkg" : String) = "" then "mod" else "pkg" ++ "." ++ "mod",
          FrozenModule.mk "m:pkg.mod" false)] :=
  ⟨rfl, rfl,
    c4_package_initializer tagCompile "pkg" "i" "m" "i:pkg" "m:pkg.mod" Mode.exec 0
      rfl rfl⟩

/-- Claim C6, counterexample: a configuration holding two source keys can
fail with a different error first — here an invalid (non-string) `mode`
literal placed before them aborts with the mode error, not the
duplicate-source error. -/
theorem c6_earlier_error_cex :
    pyCompileInputCompile tagCompile (FsTree.dir []) [] 1
      [PMeta.nameValue "mode" PLit.other,
       PMeta.nameValue "source" (PLit.str "x"),
       PMeta.nameValue "file" (PLit.str "y")]
    = Except.error Err.modeNotString
    ∧ Err.modeNotString ≠ Err.duplicateSource :=
  ⟨rfl, by decide⟩

/-- Claim C6, amended: if every key before the second source key validates
(so the loop reaches it with a source already set), that second source key
fails with the duplicate-source error immediately — whatever comes after it
and whatever the compiler is, so no compilation is attempted. -/
theorem c6_duplicate_source {Code : Type} (f : CompileFn Code) (fs : FsTree)
    (md : List String) (fuel : Nat) (pre rest : List PMeta) (st : VState)
    (k : CompilationSourceKind) (n : String) (l : PLit)
    (hpre : foldMetas pre (VState.mk none none none) = Except.ok st)
    (hsrc : st.source = some k)
    (hn : n = "source" ∨ n = "file" ∨ n = "dir") :
    pyCompileInputCompile f fs md fuel (pre ++ PMeta.nameValue n l :: rest)
    = Except.error Err.duplicateSource := by
  have hstep : processMeta st (PMeta.nameValue n l) = Except.error Err.duplicateSource := by
    rcases hn with hn | hn | hn <;> subst hn <;> simp [processMeta, hsrc]
  unfold pyCompileInputCompile
  rw [foldMetas_append, hpre]
  simp [foldMetas, hstep]

theorem c6_duplicate_source_wit :
    foldMetas [PMeta.nameValue "source" (PLit.str "x")] (VState.mk none none none)
      = Except.ok (VState.mk none none (some (CompilationSourceKind.sourceCode "x"))) ∧
    pyCompileInputCompile tagCompile (FsTree.dir []) [] 1
      ([PMeta.nameValue "source" (PLit.str "x")] ++ PMeta.nameValue "file" (PLit.str "y") :: [])
    = Except.error Err.duplicateSource :=
  ⟨rfl,
    c6_duplicate_source tagCompile (FsTree.dir []) [] 1
      [PMeta.nameValue "source" (PLit.str "x")] []
      (VState.mk none none (some (CompilationSourceKind.sourceCode "x")))
      (CompilationSourceKind.sourceCode "x") "file" (PLit.str "y")
      rfl rfl (Or.inr (Or.inl rfl))⟩

/-- Claim C5: an indirection file whose trimmed content resolves (relative
to its own directory) to an existing sibling source file produces exactly
the bundle obtained when that sibling's contents sit directly at the
indirection file's location under the indirection file's stem — for any
compiler, mode, parent prefix, contents and stems. -/
theorem c5_pylink_equiv {Code : Type} (f : CompileFn Code) (t m c s p : String)
    (mode : Mode) (fuel : Nat) (ht : t ≠ "") (hm : m ≠ "")
    (hres : resolveLink [] s = [t ++ ".py"]) :
    compileDir f
      (FsTree.dir [(t ++ ".py", FsTree.file c), (m ++ ".pylink", FsTree.file s)])
      (fuel + 1) [] p mode
    = compileDir f
      (FsTree.dir [(t ++ ".py", FsTree.file c), (m ++ ".py", FsTree.file c)])
      (fuel + 1) [] p mode := by
  have hst : stemExt (t ++ ".py") = (t, some "py") := stemExt_py t ht
  have hsl : stemExt (m ++ ".pylink") = (m, some "pylink") := stemExt_pylink m hm
  have hsm : stemExt (m ++ ".py") = (m, some "py") := stemExt_py m hm
  have hne1 : ((t ++ ".py") == (m ++ ".pylink")) = false :=
    beq_eq_false_iff_ne.mpr (py_ne_pylink t m)
  by_cases htm : t = m
  · subst htm
    simp [compileDir, compileEntries, FsTree.readDir, FsTree.readFile, FsTree.isDir,
      FsTree.lookup, lookupEntry, hst, hsl, hne1, hres]
  · have hne2 : ((t ++ ".py") == (m ++ ".py")) = false :=
      beq_eq_false_iff_ne.mpr (fun h => htm (append_py_inj h))
    simp [compileDir, compileEntries, FsTree.readDir, FsTree.readFile, FsTree.isDir,
      FsTree.lookup, lookupEntry, hst, hsl, hsm, hne1, hne2, hres]

theorem c5_pylink_equiv_wit :
    ("target" : String) ≠ "" ∧
    resolveLink [] "  target.py  " = ["target" ++ ".py"] ∧
    compileDir tagCompile
      (FsTree.dir [("target" ++ ".py", FsTree.file "c"),
        ("m" ++ ".pylink", FsTree.file "  target.py  ")]) 1 [] "" Mode.exec
    = compileDir tagCompile
      (FsTree.dir [("target" ++ ".py", FsTree.file "c"),
        ("m" ++ ".py", FsTree.file "c")]) 1 [] "" Mode.exec :=
  ⟨by decide, rfl,
    c5_pylink_equiv tagCompile "target" "m" "c" "  target.py  " "" Mode.exec 0
      (by decide) (by decide) rfl⟩

/-- A flat directory listing of plain source files built from
(stem, content) pairs. -/
def pyFiles (es : List (String × String)) : List (String × FsTree) :=
  es.map (fun p => (p.1 ++ ".py", FsTree.file p.2))

theorem lookupEntry_pyFiles (es : List (String × String)) (n c : String)
    (hmem : (n, c) ∈ es) (hnodup : (es.map Prod.fst).Nodup) :
    lookupEntry (pyFiles es) (n ++ ".py") = some (FsTree.file c) := by
  induction es with
  | nil => cases hmem
  | cons hd tl ih =>
    have hnd := List.nodup_cons.mp hnodup
    by_cases hn : hd.1 = n
    · have hc : hd.2 = c := by
        rcases List.mem_cons.mp hmem with h | h
        · rw [← h]
        · exact absurd (hn ▸ List.mem_map_of_mem Prod.fst h) hnd.1
      simp [pyFiles, lookupEntry, hn, hc]
    · have hne : ((hd.1 ++ ".py") == (n ++ ".py")) = false :=
        beq_eq_false_iff_ne.mpr (fun h => hn (append_py_inj h))
      have hmem' : (n, c) ∈ tl := by
        rcases List.mem_cons.mp hmem with h | h
        · exact absurd (congrArg Prod.fst h.symm) hn
        · exact h
      simpa [pyFiles, lookupEntry, hne] using ih hmem' hnd.2

theorem compileEntries_pyNames {Code : Type} (f : CompileFn Code) (fs : FsTree)
    (recur : List String → String → Mode → Except Err (Bundle Code)) (mode : Mode)
    (kf : String → String → Code) :
    ∀ (ns : List (String × String)) (acc : Bundle Code),
    (∀ q ∈ ns, fs.readFile [q.1 ++ ".py"] = some q.2) →
    (∀ q ∈ ns, fs.isDir [q.1 ++ ".py"] = false) →
    (∀ q ∈ ns, q.1 ≠ "" ∧ q.1 ≠ "__init__") →
    (∀ q ∈ ns, f q.2 mode q.1 = Except.ok (kf q.1 q.2)) →
    (∀ q ∈ ns, ∀ b ∈ acc, b.1 ≠ q.1) →
    (ns.map Prod.fst).Nodup →
    compileEntries f fs recur [] (ns.map (fun q => q.1 ++ ".py")) "" mode acc
    = Except.ok (acc ++ ns.map (fun q => (q.1, FrozenModule.mk (kf q.1 q.2) false)))
  | [], acc, _, _, _, _, _, _ => by simp [compileEntries]
  | (n, c) :: tl, acc, hread, hdir, hst, hcomp, hfresh, hnodup => by
    have hmemh : (n, c) ∈ (n, c) :: tl := List.mem_cons_self _ _
    have hsth := hst _ hmemh
    have hstem : stemExt (n ++ ".py") = (n, some "py") := stemExt_py n hsth.1
    have hinit : (n == "__init__") = false := beq_eq_false_iff_ne.mpr hsth.2
    have hins : insertMod acc n (FrozenModule.mk (kf n c) false)
        = acc ++ [(n, FrozenModule.mk (kf n c) false)] :=
      insertMod_fresh acc n _ (hfresh _ hmemh)
    have hnd := List.nodup_cons.mp hnodup
    have ih := compileEntries_pyNames f fs recur mode kf tl
      (acc ++ [(n, FrozenModule.mk (kf n c) false)])
      (fun q hq => hread q (List.mem_cons_of_mem _ hq))
      (fun q hq => hdir q (List.mem_cons_of_mem _ hq))
      (fun q hq => hst q (List.mem_cons_of_mem _ hq))
      (fun q hq => hcomp q (List.mem_cons_of_mem _ hq))
      (by
        intro q hq b hb
        rcases List.mem_append.mp hb with hb | hb
        · exact hfresh q (List.mem_cons_of_mem _ hq) b hb
        · have hbn : b.1 = n := by
            rcases List.mem_singleton.mp hb with h
            rw [h]
          have hq1 : q.1 ∈ List.map Prod.fst tl := List.mem_map_of_mem Prod.fst hq
          rw [hbn]
          intro h
          exact hnd.1 (by rw [h]; exact hq1))
      hnd.2
    have hreadx : fs.readFile [n ++ ".py"] = some c := hread _ hmemh
    have hdirx : fs.isDir [n ++ ".py"] = false := hdir _ hmemh
    have hcompx : f c mode n = Except.ok (kf n c) := hcomp _ hmemh
    simp [compileEntries, hstem, hreadx, hdirx, hcompx, hinit, hins, ih]

/-- Claim C8, amended: for a `dir` request over a flat directory of plain
source files whose stems are distinct, non-empty, not the package
initializer, and dot-free, the produced bundle's qualified names are exactly
the file stems, and none of them contains a dot. -/
theorem c8_flat_dir_stems {Code : Type} (f : CompileFn Code) (mode : Mode)
    (fuel : Nat) (es : List (String × String)) (kf : String → String → Code)
    (hstem : ∀ q ∈ es, q.1 ≠ "" ∧ q.1 ≠ "__init__" ∧ '.' ∉ q.1.data)
    (hnodup : (es.map Prod.fst).Nodup)
    (hcomp : ∀ q ∈ es, f q.2 mode q.1 = Except.ok (kf q.1 q.2)) :
    compileDir f (FsTree.dir (pyFiles es)) (fuel + 1) [] "" mode
    = Except.ok (es.map (fun q => (q.1, FrozenModule.mk (kf q.1 q.2) false)))
    ∧ ∀ k ∈ (es.map (fun q => (q.1, FrozenModule.mk (kf q.1 q.2) false))).map
        Prod.fst, '.' ∉ k.data := by
  constructor
  · have hnames : (FsTree.dir (pyFiles es)).readDir []
        = some (es.map (fun q => q.1 ++ ".py")) := by
      simp [FsTree.readDir, FsTree.lookup, pyFiles, List.map_map, Function.comp]
    have hgo := compileEntries_pyNames f (FsTree.dir (pyFiles es))
      (compileDir f (FsTree.dir (pyFiles es)) fuel) mode kf es []
      (by
        intro q hq
        have := lookupEntry_pyFiles es q.1 q.2 hq hnodup
        simp [FsTree.readFile, FsTree.lookup, this])
      (by
        intro q hq
        have := lookupEntry_pyFiles es q.1 q.2 hq hnodup
        simp [FsTree.isDir, FsTree.lookup, this])
      (fun q hq => ⟨(hstem q hq).1, (hstem q hq).2.1⟩)
      hcomp
      (by intro q _ b hb; cases hb)
      hnodup
    simpa [compileDir, hnames] using hgo
  · intro k hk
    simp only [List.map_map] at hk
    rcases List.mem_map.mp hk with ⟨q, hq, hqe⟩
    have hkq : k = q.1 := by simpa using hqe.symm
    rw [hkq]
    exact (hstem q hq).2.2

/-- Claim C8, counterexample: a flat directory of only source-extension
files whose bundle keys are not the stems — `__init__.py` maps to the empty
name (not to stem `__init__`), and stem `a.b` yields a name containing a
dot. -/
theorem c8_stems_cex :
    compileDir tagCompile
      (FsTree.dir [("__init__.py", FsTree.file "s"), ("a.b.py", FsTree.file "t")])
      1 [] "" Mode.exec
    = Except.ok [("", FrozenModule.mk "s:" true), ("a.b", FrozenModule.mk "t:a.b" false)]
    ∧ (("" : String) ≠ "__init__" ∧ ("" : String) ≠ "a.b")
    ∧ '.' ∈ ("a.b" : String).data :=
  ⟨rfl, by decide, by decide⟩

theorem c8_flat_dir_stems_wit :
    (List.map Prod.fst [(("a" : String), ("s1" : String)), ("b", "s2")]).Nodup ∧
    compileDir tagCompile (FsTree.dir (pyFiles [("a", "s1"), ("b", "s2")]))
      1 [] "" Mode.exec
    = Except.ok [("a", FrozenModule.mk "s1:a" false), ("b", FrozenModule.mk "s2:b" false)] :=
  ⟨by decide,
    (c8_flat_dir_stems tagCompile Mode.exec 0 [("a", "s1"), ("b", "s2")]
      (fun n c => c ++ ":" ++ n) (by decide) (by decide)
      (by intro q hq; simp at hq; rcases hq with h | h <;> subst h <;> rfl)).1⟩
